import Mathlib

/-!
Verification of the NEU calendar MCP server (`neu_calendar_server.py`).

The development shallowly embeds the ingestion pipeline of the server:
the feed cache (`fetch_calendar_data`), the per-record normalizer
(`extract_event_details`), the aggregation and sort (`get_all_events`),
and the query-layer filters (`get_today_events`, `get_upcoming_events`,
`search_events`, `get_events_by_category`, `get_event_details`).

Python strings are modelled as `String` / `List Char`; the handful of
Python string operations the code uses (lexicographic comparison,
`lower`, `split`, `strip`, substring containment, `float` parsing and
the numeric-token regex) are given as executable definitions over
`List Char`.  Python floats are modelled as exact rationals built with
`mkRat`; the code only ever converts decimal literals, so no rounding
behaviour is observable in the modelled fragment.  A value of type
`Fallible α` models a Python expression that either produces an `α` or
raises an exception that the surrounding `try` is meant to catch.
-/

/-- Models a Python expression that either yields a value or raises. -/
inductive Fallible (α : Type) where
  | val (a : α)
  | raised
deriving DecidableEq

/-- Lexicographic comparison of character lists by code point: the model of
Python string `<=`. -/
def lexLe : List Char → List Char → Bool
  | [], _ => true
  | _ :: _, [] => false
  | a :: as, b :: bs =>
    if a.toNat < b.toNat then true
    else if a.toNat = b.toNat then lexLe as bs
    else false

/-- Models Python `str.lower` on the ASCII fragment. -/
def pyLowerChar (c : Char) : Char :=
  if 'A' ≤ c ∧ c ≤ 'Z' then Char.ofNat (c.toNat + 32) else c

/-- Models Python `str.lower` (ASCII fragment) on the underlying characters. -/
def pyLower (cs : List Char) : List Char :=
  cs.map pyLowerChar

/-- Does `hay` start with `needle`? -/
def startsWithChars : List Char → List Char → Bool
  | [], _ => true
  | _ :: _, [] => false
  | a :: as, b :: bs => a = b && startsWithChars as bs

/-- Models the Python substring test `needle in hay`. -/
def containsSub (needle hay : List Char) : Bool :=
  match hay with
  | [] => needle.isEmpty
  | _ :: t => startsWithChars needle hay || containsSub needle t

/-- Models Python `str.split(sep)` for a one-character separator. -/
def splitChar (sep : Char) : List Char → List (List Char)
  | [] => [[]]
  | c :: rest =>
    let r := splitChar sep rest
    if c = sep then [] :: r
    else
      match r with
      | [] => [[c]]
      | h :: t => (c :: h) :: t

/-- Models Python `str.strip()` (whitespace strip on both ends). -/
def pyStrip (cs : List Char) : List Char :=
  ((cs.dropWhile Char.isWhitespace).reverse.dropWhile Char.isWhitespace).reverse

/-- Numeric value of a list of decimal digit characters. -/
def digitsToNat (cs : List Char) : Nat :=
  cs.foldl (fun n c => n * 10 + (c.toNat - 48)) 0

/-- Models Python `float()` on the decimal-literal fragment the server can
feed it: an optional sign followed by digits with an optional decimal
point (at least one digit overall).  Exponents, `inf`, `nan`,
underscores and surrounding whitespace never occur in the modelled call
sites.  Returns `none` when `float()` would raise `ValueError`. -/
def pyFloat (cs : List Char) : Option Rat :=
  let signAndRest : Int × List Char :=
    match cs with
    | '+' :: r => (1, r)
    | '-' :: r => (-1, r)
    | r => (1, r)
  let sign := signAndRest.1
  let rest := signAndRest.2
  let intDigits := rest.takeWhile Char.isDigit
  match rest.dropWhile Char.isDigit with
  | [] =>
    if intDigits.isEmpty then none
    else some (mkRat (sign * (digitsToNat intDigits : Int)) 1)
  | '.' :: fr =>
    let fracDigits := fr.takeWhile Char.isDigit
    if (fr.dropWhile Char.isDigit).isEmpty
        && !(intDigits.isEmpty && fracDigits.isEmpty) then
      some (mkRat
        (sign * ((digitsToNat intDigits * 10 ^ fracDigits.length
                  + digitsToNat fracDigits : Nat) : Int))
        (10 ^ fracDigits.length))
    else none
  | _ => none

/-- Length of a match of the first regex alternative `[-+]?\d*\.\d+` at the
head of the list, if any.  The greedy `\d*` followed by a literal dot
admits no backtracking alternatives, so the match length is unique. -/
def matchFloatTok (cs : List Char) : Option Nat :=
  let signAndRest : Nat × List Char :=
    match cs with
    | '+' :: r => (1, r)
    | '-' :: r => (1, r)
    | r => (0, r)
  let sLen := signAndRest.1
  let r := signAndRest.2
  let ds := r.takeWhile Char.isDigit
  match r.dropWhile Char.isDigit with
  | '.' :: fr =>
    let fs := fr.takeWhile Char.isDigit
    if fs.isEmpty then none else some (sLen + ds.length + 1 + fs.length)
  | _ => none

/-- Length of a match of the second regex alternative `\d+` at the head of
the list, if any. -/
def matchIntTok (cs : List Char) : Option Nat :=
  let ds := cs.takeWhile Char.isDigit
  if ds.isEmpty then none else some ds.length

/-- Fuelled scanner for `re.findall`; every step either consumes at least
one character or moves past one, so fuel equal to the length suffices. -/
def scanNumberToks : Nat → List Char → List (List Char)
  | 0, _ => []
  | _ + 1, [] => []
  | fuel + 1, c :: rest =>
    match matchFloatTok (c :: rest) with
    | some n => (c :: rest).take n :: scanNumberToks fuel ((c :: rest).drop n)
    | none =>
      match matchIntTok (c :: rest) with
      | some n => (c :: rest).take n :: scanNumberToks fuel ((c :: rest).drop n)
      | none => scanNumberToks fuel rest

/-- Models `re.findall` of the pattern `[-+]?\d*\.\d+|\d+` (leftmost,
non-overlapping, first alternative preferred). -/
def reFindNumbers (cs : List Char) : List (List Char) :=
  scanNumberToks cs.length cs

/-- A parsed geographic coordinate pair, Python side a dict with keys
latitude and longitude. -/
structure GeoPair where
  latitude : Rat
  longitude : Rat
deriving DecidableEq

/-- The source shapes a raw GEO property value can take.
`structured` models an object with `latitude` and `longitude` float
attributes (the icalendar vGeo case); `pair` models a non-string
iterable (tuple or list) of floats; `strval` models a Python string.
A Python string also has `__iter__` and `len`, which is what the code
dispatches on. -/
inductive RawGeo where
  | structured (latitude longitude : Rat)
  | pair (elems : List Rat)
  | strval (s : String)
deriving DecidableEq

/-- First character of the list as a one-character string, the model of
`geo[0]` on a Python string. -/
def charAt (cs : List Char) (i : Nat) : List Char :=
  match cs.drop i with
  | [] => []
  | c :: _ => [c]

/-- Geo extraction for a string value, following the branch structure of
lines 130-145 of the source.  A Python `str` has no `latitude`
attribute, but it does have `__iter__`, and `len` counts its
characters, so every string of length at least two takes the
tuple-unpacking branch with the first two characters as the unpacked
elements; `float()` raising there is caught by the surrounding `try`
and leaves `geo_data = None`.  The semicolon branch is reachable only
for strings shorter than two characters. -/
def geoFromStr (s : List Char) : Option GeoPair :=
  if 2 ≤ s.length then
    match pyFloat (charAt s 0), pyFloat (charAt s 1) with
    | some a, some b => some ⟨a, b⟩
    | _, _ => none
  else if s.contains ';' then
    let parts := splitChar ';' s
    if 2 ≤ parts.length then
      match pyFloat (parts.getD 0 []), pyFloat (parts.getD 1 []) with
      | some a, some b => some ⟨a, b⟩
      | _, _ => none
    else none
  else
    let numbers := reFindNumbers s
    if 2 ≤ numbers.length then
      match pyFloat (numbers.getD 0 []), pyFloat (numbers.getD 1 []) with
      | some a, some b => some ⟨a, b⟩
      | _, _ => none
    else none

/-- Geo extraction over the shape union, lines 125-148 of the source.
`none` models an absent (or falsy) GEO property; a falsy value (empty
string, empty tuple) yields `none` through the guards exactly as the
truthiness test would, so the `if geo:` test needs no separate case. -/
def geoFromRaw : Option RawGeo → Option GeoPair
  | none => none
  | some (.structured la lo) => some ⟨la, lo⟩
  | some (.pair xs) =>
    if 2 ≤ xs.length then some ⟨xs.getD 0 0, xs.getD 1 0⟩ else none
  | some (.strval s) => geoFromStr s.data

/-- One item of a CATEGORIES value stored as a Python list: a plain string
(line 159), a wrapper object exposing a `cats` collection of strings
(line 161), or anything else (silently skipped by the loop). -/
inductive CatItem where
  | strval (s : String)
  | withCats (cats : List String)
  | other
deriving DecidableEq

/-- The source shapes a raw CATEGORIES property can take, lines 153-176 of
the source: a list of items, a byte string (whose UTF-8 decode can fail,
modelled by `decoded`, with `strRepr` the `str()` of the raw bytes), a
plain string, a wrapper object with a `cats` collection, or an
unrecognized shape. -/
inductive RawCats where
  | list (items : List CatItem)
  | bytes (decoded : Fallible String) (strRepr : String)
  | strval (s : String)
  | withCats (cats : List String)
  | other
deriving DecidableEq

/-- Models the comprehension `[c.strip() for c in s.split(",") if c.strip()]`. -/
def splitTrim (s : String) : List String :=
  (((splitChar ',' s.data).map pyStrip).filter (fun cs => !cs.isEmpty)).map
    fun cs => String.mk cs

/-- Models the comprehension `[c.strip() for c in cats if c.strip()]`
(no comma split). -/
def trimFilter (l : List String) : List String :=
  ((l.map fun s => pyStrip s.data).filter (fun cs => !cs.isEmpty)).map
    fun cs => String.mk cs

/-- Category extraction over the shape union, lines 151-179 of the source.
`Fallible.raised` on the outside models the property access itself
raising (caught at line 177, yielding `[]`); `none` models the property
being absent or falsy.  Falsy values (empty list, empty string, empty
bytes) are skipped by the `if raw_categories:` test but produce `[]`
through the branches as well, so no separate truthiness case is
needed. -/
def extractCategories : Fallible (Option RawCats) → List String
  | .raised => []
  | .val none => []
  | .val (some (.list items)) =>
    items.foldl
      (fun acc it =>
        acc ++
          match it with
          | .strval s => splitTrim s
          | .withCats cs => trimFilter cs
          | .other => [])
      []
  | .val (some (.bytes decoded strRepr)) =>
    match decoded with
    | .val d => splitTrim d
    | .raised => splitTrim strRepr
  | .val (some (.strval s)) => splitTrim s
  | .val (some (.withCats cs)) => trimFilter cs
  | .val (some .other) => []

/-- The `.dt` value of a DTSTART or DTEND property.  `dtime` models a
`datetime.datetime`, carrying the `strftime` renderings of its date
part and of its `%H:%M` time; `donly` models a `datetime.date`;
`weird` models a truthy value of any other type, on which the later
`strftime` call at line 184 or 186 raises.  (A falsy non-date value
would render as `None` at that line, indistinguishable from an absent
property, so it needs no variant of its own.) -/
inductive RawDt where
  | dtime (d : String) (t : String)
  | donly (d : String)
  | weird
deriving DecidableEq

/-- The value bound to `event_start_date` or `event_end_date` after the
inner `try`: a date already rendered as a string, or a non-date value
that will make `strftime` raise during dict construction. -/
inductive DVal where
  | ds (s : String)
  | weird
deriving DecidableEq

/-- Models lines 69-86 (and 89-106) of the source: the inner guarded
extraction of a date/time pair.  `Fallible.raised` models the `.dt`
access (or anything else inside the inner `try`) raising, which the
inner `except` folds to `(None, None)`. -/
def extractDtInner : Fallible (Option RawDt) → Option DVal × Option String
  | .raised => (none, none)
  | .val none => (none, none)
  | .val (some (.dtime d t)) => (some (.ds d), some t)
  | .val (some (.donly d)) => (some (.ds d), none)
  | .val (some .weird) => (some .weird, none)

/-- Models `event_start_date.strftime("%Y-%m-%d") if event_start_date else
None` at line 184/186: formatting a date value succeeds, formatting a
`weird` value raises (escaping to the outer guard). -/
def formatDateField : Option DVal → Fallible (Option String)
  | none => .val none
  | some (.ds s) => .val (some s)
  | some .weird => .raised

/-- A raw calendar component as produced by walking the parsed ICS
document.  `name` is the component name (`VEVENT` for events).
`summary` models `component.get("SUMMARY")`: on a parsed icalendar
component this is a plain `dict` lookup returning a `vText` (a `str`
subclass), so neither the lookup nor its `str()` can raise; the other
properties are wrapped in `Fallible` because their further processing
(`.dt`, attribute probing, `float`, decoding) can raise inside the
respective guards. -/
structure RawComponent where
  name : String
  summary : Option String
  dtstart : Fallible (Option RawDt)
  dtend : Fallible (Option RawDt)
  location : Fallible (Option String)
  description : Fallible (Option String)
  url : Fallible (Option String)
  geo : Fallible (Option RawGeo)
  categories : Fallible (Option RawCats)
deriving DecidableEq

/-- Models `str(component.get(KEY, ""))` under its field guard
(lines 109-122): absent yields the empty default, an exception yields
the empty string. -/
def strField : Fallible (Option String) → String
  | .raised => ""
  | .val none => ""
  | .val (some s) => s

/-- Geo extraction including the guard of lines 126-148: an exception
anywhere in the block yields `None`. -/
def extractGeo : Fallible (Option RawGeo) → Option GeoPair
  | .raised => none
  | .val g => geoFromRaw g

/-- A normalized event, the dict built at lines 182-193 of the source.
All ten fields are always present. -/
structure NormalizedEvent where
  summary : String
  start_date : Option String
  start_time : Option String
  end_date : Option String
  end_time : Option String
  location : String
  description : String
  url : String
  geo : Option GeoPair
  categories : List String
deriving DecidableEq

/-- The minimal record returned by the outer `except` at lines 200-211. -/
def minimalEvent (c : RawComponent) : NormalizedEvent :=
  { summary := c.summary.getD "Unknown Event"
    start_date := none
    start_time := none
    end_date := none
    end_time := none
    location := ""
    description := ""
    url := ""
    geo := none
    categories := [] }

/-- Models `extract_event_details`, lines 61-211 of the source.  Every
per-field extraction is guarded; the only exceptions that can escape
the field guards are the `strftime` calls on a `weird` date value at
lines 184/186, which the outer `except` turns into the minimal
summary-only record. -/
def extract_event_details (c : RawComponent) : NormalizedEvent :=
  let event_summary := c.summary.getD ""
  let startPair := extractDtInner c.dtstart
  let endPair := extractDtInner c.dtend
  let event_location := strField c.location
  let event_description := strField c.description
  let event_url := strField c.url
  let geo_data := extractGeo c.geo
  let categories := extractCategories c.categories
  match formatDateField startPair.1, formatDateField endPair.1 with
  | .val sd, .val ed =>
    { summary := event_summary
      start_date := sd
      start_time := startPair.2
      end_date := ed
      end_time := endPair.2
      location := event_location
      description := event_description
      url := event_url
      geo := geo_data
      categories := categories }
  | _, _ => minimalEvent c

/-- The raw parsed document, modelled as the component list its `walk()`
yields (the VCALENDAR wrapper and any non-event components included). -/
abbrev RawDocument := List RawComponent

/-- The sort key of line 226: `x["start_date"] if x["start_date"] else
"9999-12-31"`; note the Python truthiness test, under which both `None`
and the empty string fall back to the sentinel. -/
def sortKey (e : NormalizedEvent) : String :=
  match e.start_date with
  | some s => if s = "" then "9999-12-31" else s
  | none => "9999-12-31"

/-- The comparison under which line 226 sorts: string comparison of sort
keys. -/
def sortLe (a b : NormalizedEvent) : Prop :=
  lexLe (sortKey a).data (sortKey b).data = true

instance : DecidableRel sortLe :=
  fun a b => instDecidableEqBool (lexLe (sortKey a).data (sortKey b).data) true

/-- Models `get_all_events`, lines 213-228: walk the document, normalize
every VEVENT component in order, and stable-sort by start date.
Python `list.sort` is a stable sort; any stable sort computes the same
list, and `List.insertionSort` (first element inserted before equal
keys) is stable. -/
def get_all_events (cal : RawDocument) : List NormalizedEvent :=
  List.insertionSort sortLe
    ((cal.filter fun c => decide (c.name = "VEVENT")).map extract_event_details)

/-- The process-wide cache cell, lines 19-23 of the source: the last fetch
timestamp and the cached parsed document.  Timestamps are modelled as
integer seconds. -/
structure CacheState where
  last_fetch : Option Int
  data : Option RawDocument
deriving DecidableEq

/-- The initial cache: both entries `None`. -/
def initialCache : CacheState := ⟨none, none⟩

/-- The cache TTL, `datetime.timedelta(hours=1)`, in seconds. -/
def cache_duration : Int := 3600

/-- Outcome of the network fetch plus ICS parse that the `try` block at
lines 38-50 would perform if it runs: either a parsed document or an
exception message. -/
inductive AttemptOutcome where
  | success (cal : RawDocument)
  | failure (e : String)
deriving DecidableEq

/-- What one call of `fetch_calendar_data` returns to its caller: the
parsed document, or the exception raised at line 57. -/
inductive CalResult where
  | doc (cal : RawDocument)
  | fetchFailure (msg : String)
deriving DecidableEq

/-- Full observable outcome of one call: the cache state after the call,
the returned value or error, whether the network fetch was attempted,
and whether it completed successfully. -/
structure FetchOutcome where
  state : CacheState
  result : CalResult
  attempted : Bool
  succeeded : Bool
deriving DecidableEq

/-- The refresh condition of lines 33-35: last fetch absent, data absent,
or the cache older than the TTL. -/
def needsRefresh (st : CacheState) (now : Int) : Bool :=
  match st.last_fetch, st.data with
  | none, _ => true
  | _, none => true
  | some lf, some _ => decide (cache_duration < now - lf)

/-- Models `fetch_calendar_data`, lines 25-59 of the source, as a step
function on the cache state.  `now` is the evaluation time and
`attempt` the outcome the network fetch and parse would have if
executed. -/
def fetch_calendar_data (st : CacheState) (now : Int) (attempt : AttemptOutcome) :
    FetchOutcome :=
  if needsRefresh st now then
    match attempt with
    | .success cal => ⟨⟨some now, some cal⟩, .doc cal, true, true⟩
    | .failure e =>
      match st.data with
      | some d => ⟨st, .doc d, true, false⟩
      | none => ⟨st, .fetchFailure ("Failed to fetch calendar data: " ++ e), true, false⟩
  else
    ⟨st, .doc (st.data.getD []), false, false⟩

/-- Runs a sequence of `fetch_calendar_data` calls from a given state,
also accumulating whether any call has completed a successful fetch.
Each list entry is the evaluation time of a call together with the
outcome its fetch attempt would have. -/
def runCalls : CacheState → Bool → List (Int × AttemptOutcome) → CacheState × Bool
  | st, ever, [] => (st, ever)
  | st, ever, (now, att) :: rest =>
    let o := fetch_calendar_data st now att
    runCalls o.state (ever || o.succeeded) rest

/-- A Python `datetime.date`, as used by `datetime.date.today()` and the
`timedelta` arithmetic of the query layer. -/
structure PyDate where
  year : Nat
  month : Nat
  day : Nat
deriving DecidableEq

/-- Gregorian leap-year test. -/
def isLeap (y : Nat) : Bool :=
  y % 4 == 0 && (y % 100 != 0 || y % 400 == 0)

/-- Number of days of a month. -/
def daysInMonth (y m : Nat) : Nat :=
  if m = 2 then (if isLeap y then 29 else 28)
  else if m = 4 ∨ m = 6 ∨ m = 9 ∨ m = 11 then 30
  else 31

/-- The calendar successor of a date. -/
def nextDay (d : PyDate) : PyDate :=
  if d.day < daysInMonth d.year d.month then ⟨d.year, d.month, d.day + 1⟩
  else if d.month < 12 then ⟨d.year, d.month + 1, 1⟩
  else ⟨d.year + 1, 1, 1⟩

/-- Models `today + datetime.timedelta(days=n)` for a valid date and a
non-negative day count (the day counts the tools are called with). -/
def addDays (d : PyDate) : Nat → PyDate
  | 0 => d
  | n + 1 => nextDay (addDays d n)

/-- Zero-padded two-digit rendering, as `strftime` `%m` and `%d` produce.
The relevant values are below 100. -/
def pad2 (n : Nat) : List Char :=
  if n < 10 then '0' :: Nat.toDigits 10 n else Nat.toDigits 10 n

/-- The characters of `strftime("%Y-%m-%d")`; `%Y` renders the year
unpadded on the reference platform, which for the four-digit years in
play is the plain decimal rendering. -/
def fmtChars (d : PyDate) : List Char :=
  Nat.toDigits 10 d.year ++ '-' :: (pad2 d.month ++ '-' :: pad2 d.day)

/-- Models `date.strftime("%Y-%m-%d")`. -/
def PyDate.fmt (d : PyDate) : String :=
  String.mk (fmtChars d)

/-- The date-range test shared by the query tools: `event["start_date"]
and today_str <= event["start_date"] <= end_date_str`.  A falsy
(absent or empty) start date fails the test. -/
def dateInRange (todayStr endStr : String) (e : NormalizedEvent) : Bool :=
  match e.start_date with
  | some sd => !sd.data.isEmpty && lexLe todayStr.data sd.data && lexLe sd.data endStr.data
  | none => false

/-- Models the filtering of `get_today_events`, lines 240-245: keep the
events whose start date equals the rendering of today.  (`None == str`
is `False` in Python.) -/
def get_today_events (today : PyDate) (all_events : List NormalizedEvent) :
    List NormalizedEvent :=
  let todayStr := today.fmt
  all_events.filter fun e =>
    match e.start_date with
    | some sd => decide (sd = todayStr)
    | none => false

/-- Models the filtering of `get_upcoming_events`, lines 277-287: keep the
events whose start date is truthy and lies between today and
`today + timedelta(days=days)` inclusive, under string comparison. -/
def get_upcoming_events (today : PyDate) (days : Nat)
    (all_events : List NormalizedEvent) : List NormalizedEvent :=
  let todayStr := today.fmt
  let endStr := (addDays today days).fmt
  all_events.filter fun e => dateInRange todayStr endStr e

/-- Models the filtering of `search_events`, lines 334-348: the date-range
test plus a case-insensitive substring match against summary or
description. -/
def search_events (query : String) (today : PyDate) (days : Nat)
    (all_events : List NormalizedEvent) : List NormalizedEvent :=
  let todayStr := today.fmt
  let endStr := (addDays today days).fmt
  let q := pyLower query.data
  all_events.filter fun e =>
    dateInRange todayStr endStr e &&
      (containsSub q (pyLower e.summary.data)
        || containsSub q (pyLower e.description.data))

/-- Models the filtering of `get_events_by_category`, lines 382-396: the
date-range test plus a case-insensitive substring match against any
category entry. -/
def get_events_by_category (category : String) (today : PyDate) (days : Nat)
    (all_events : List NormalizedEvent) : List NormalizedEvent :=
  let todayStr := today.fmt
  let endStr := (addDays today days).fmt
  let c := pyLower category.data
  all_events.filter fun e =>
    dateInRange todayStr endStr e &&
      e.categories.any fun cat => containsSub c (pyLower cat.data)

/-- Models the filtering of `get_event_details`, lines 443-450: keep the
events whose summary contains the given name, case-insensitively; no
date condition at all. -/
def get_event_details (event_name : String)
    (all_events : List NormalizedEvent) : List NormalizedEvent :=
  let nameLower := pyLower event_name.data
  all_events.filter fun e => containsSub nameLower (pyLower e.summary.data)

/-- Modelled from the claim wording of the geo resolution order, for
comparison with the code: the structured-pair strategy. -/
def geoStrategyStructured : RawGeo → Option GeoPair
  | .structured la lo => some ⟨la, lo⟩
  | _ => none

/-- Modelled from the claim wording: the iterable-unpacking strategy (a
string is iterable with its characters as elements); yields `none` when
it does not apply or when `float` raises. -/
def geoStrategyIterable : RawGeo → Option GeoPair
  | .pair xs => if 2 ≤ xs.length then some ⟨xs.getD 0 0, xs.getD 1 0⟩ else none
  | .strval s =>
    if 2 ≤ s.data.length then
      match pyFloat (charAt s.data 0), pyFloat (charAt s.data 1) with
      | some a, some b => some ⟨a, b⟩
      | _, _ => none
    else none
  | _ => none

/-- Modelled from the claim wording: the semicolon-split strategy. -/
def geoStrategySemicolon : RawGeo → Option GeoPair
  | .strval s =>
    if s.data.contains ';' then
      let parts := splitChar ';' s.data
      if 2 ≤ parts.length then
        match pyFloat (parts.getD 0 []), pyFloat (parts.getD 1 []) with
        | some a, some b => some ⟨a, b⟩
        | _, _ => none
      else none
    else none
  | _ => none

/-- Modelled from the claim wording: the numeric-substring regex
strategy. -/
def geoStrategyRegex : RawGeo → Option GeoPair
  | .strval s =>
    let numbers := reFindNumbers s.data
    if 2 ≤ numbers.length then
      match pyFloat (numbers.getD 0 []), pyFloat (numbers.getD 1 []) with
      | some a, some b => some ⟨a, b⟩
      | _, _ => none
    else none
  | _ => none

/-- Modelled from the claim wording, for comparison with `geoFromRaw`: try
the four strategies in the claimed order, skip any that raises or does
not apply, and let the first that yields two parseable floats determine
the result. -/
def geoChainSpec (g : RawGeo) : Option GeoPair :=
  match geoStrategyStructured g with
  | some p => some p
  | none =>
    match geoStrategyIterable g with
    | some p => some p
    | none =>
      match geoStrategySemicolon g with
      | some p => some p
      | none => geoStrategyRegex g

/-- A bare VEVENT component with only a summary. -/
def vevBare (sum : String) : RawComponent :=
  { name := "VEVENT", summary := some sum, dtstart := .val none, dtend := .val none,
    location := .val none, description := .val none, url := .val none,
    geo := .val none, categories := .val none }

/-- A bare VEVENT component with a summary and a date-only DTSTART. -/
def vevOn (sd sum : String) : RawComponent :=
  { vevBare sum with dtstart := .val (some (.donly sd)) }

/-- A document whose first event has no DTSTART and whose second event
falls on the sentinel date 9999-12-31. -/
def docSentinel : RawDocument :=
  [vevBare "NoDate", vevOn "9999-12-31" "MaxDate"]

/-- Sample normalized event carrying only a start date and a summary. -/
def evNamed (sd : Option String) (sum : String) : NormalizedEvent :=
  { summary := sum, start_date := sd, start_time := none, end_date := none,
    end_time := none, location := "", description := "", url := "",
    geo := none, categories := [] }

theorem lexLe_refl : ∀ l : List Char, lexLe l l = true
  | [] => rfl
  | a :: as => by simp [lexLe, lexLe_refl as]

theorem lexLe_total : ∀ a b : List Char, lexLe a b = true ∨ lexLe b a = true
  | [], _ => Or.inl rfl
  | _ :: _, [] => Or.inr rfl
  | a :: as, b :: bs => by
    rcases Nat.lt_trichotomy a.toNat b.toNat with h | h | h
    · left; simp [lexLe, h]
    · rcases lexLe_total as bs with ih | ih
      · left; simp [lexLe, h, Nat.lt_irrefl, ih]
      · right; simp [lexLe, h.symm, Nat.lt_irrefl, ih]
    · right; simp [lexLe, h]

theorem lexLe_trans : ∀ a b c : List Char,
    lexLe a b = true → lexLe b c = true → lexLe a c = true
  | [], _, _, _, _ => rfl
  | _ :: _, [], _, h1, _ => by simp [lexLe] at h1
  | _ :: _, _ :: _, [], _, h2 => by simp [lexLe] at h2
  | a :: as, b :: bs, c :: cs, h1, h2 => by
    simp only [lexLe] at h1 h2 ⊢
    split_ifs at h1 h2 ⊢ with hab1 hab2 hbc1 hbc2 hac1 hac2 <;>
      first
        | rfl
        | omega
        | (exact lexLe_trans as bs cs h1 h2)

theorem lexLe_nil_right : ∀ l : List Char, l ≠ [] → lexLe l [] = false
  | [], h => absurd rfl h
  | _ :: _, _ => rfl


theorem filter_orderedInsert_pos {α : Type} (p : α → Bool) (r : α → α → Prop)
    [DecidableRel r] (x : α) (hp : p x = true)
    (hcomp : ∀ y, p y = true → r x y) :
    ∀ l : List α, (List.orderedInsert r x l).filter p = x :: l.filter p := by
  intro l
  induction l with
  | nil => simp [List.orderedInsert, hp]
  | cons y ys ih =>
    by_cases hr : r x y
    · simp [List.orderedInsert, hr, hp]
    · have hpy : p y = false := by
        cases hy : p y with
        | false => rfl
        | true => exact absurd (hcomp y hy) hr
      simp [List.orderedInsert, hr, List.filter_cons, hpy, ih]

theorem filter_orderedInsert_neg {α : Type} (p : α → Bool) (r : α → α → Prop)
    [DecidableRel r] (x : α) (hp : p x = false) :
    ∀ l : List α, (List.orderedInsert r x l).filter p = l.filter p := by
  intro l
  induction l with
  | nil => simp [List.orderedInsert, hp]
  | cons y ys ih =>
    by_cases hr : r x y
    · simp [List.orderedInsert, hr, List.filter_cons, hp]
    · simp [List.orderedInsert, hr, List.filter_cons, ih]

theorem insertionSort_filter_eq {α : Type} (p : α → Bool) (r : α → α → Prop)
    [DecidableRel r] (hcomp : ∀ x y, p x = true → p y = true → r x y) :
    ∀ l : List α, (List.insertionSort r l).filter p = l.filter p := by
  intro l
  induction l with
  | nil => rfl
  | cons x xs ih =>
    show (List.orderedInsert r x (List.insertionSort r xs)).filter p = _
    cases hpx : p x with
    | true =>
      rw [filter_orderedInsert_pos p r x hpx (fun y hy => hcomp x y hpx hy), ih]
      simp [List.filter_cons, hpx]
    | false =>
      rw [filter_orderedInsert_neg p r x hpx, ih]
      simp [List.filter_cons, hpx]

theorem fetch_step_data_none (st : CacheState) (now : Int) (att : AttemptOutcome) :
    (fetch_calendar_data st now att).state.data = none ↔
      st.data = none ∧ (fetch_calendar_data st now att).succeeded = false := by
  unfold fetch_calendar_data
  by_cases h : needsRefresh st now = true
  · cases att with
    | success cal => simp [h]
    | failure e =>
      cases hd : st.data with
      | none => simp [h, hd]
      | some d => simp [h, hd]
  · simp [h]

theorem fetch_step_lf (st : CacheState) (now : Int) (att : AttemptOutcome)
    (hinv : st.data = none ↔ st.last_fetch = none) :
    (fetch_calendar_data st now att).state.data = none ↔
      (fetch_calendar_data st now att).state.last_fetch = none := by
  unfold fetch_calendar_data
  by_cases h : needsRefresh st now = true
  · cases att with
    | success cal => simp [h]
    | failure e =>
      cases hd : st.data with
      | none => simp [h, hd, hinv.mp hd]
      | some d =>
        simp [h, hd]
        intro hlf
        have := hinv.mpr hlf
        simp [hd] at this
  · simp [h, hinv]

theorem runCalls_inv (calls : List (Int × AttemptOutcome)) :
    ∀ (st : CacheState) (ever : Bool),
      (st.data = none ↔ ever = false) →
      (st.data = none ↔ st.last_fetch = none) →
      ((runCalls st ever calls).1.data = none ↔ (runCalls st ever calls).2 = false) ∧
      ((runCalls st ever calls).1.data = none ↔
        (runCalls st ever calls).1.last_fetch = none) := by
  induction calls with
  | nil => intro st ever h1 h2; exact ⟨h1, h2⟩
  | cons hd tl ih =>
    intro st ever h1 h2
    obtain ⟨now, att⟩ := hd
    show ((runCalls (fetch_calendar_data st now att).state
        (ever || (fetch_calendar_data st now att).succeeded) tl).1.data = none ↔ _) ∧ _
    refine ih _ _ ?_ ?_
    · rw [fetch_step_data_none, h1]
      cases ever <;> cases hs : (fetch_calendar_data st now att).succeeded <;> simp
    · exact fetch_step_lf st now att h2

theorem fetch_result_error_iff (st : CacheState) (now : Int) (att : AttemptOutcome) :
    (∃ msg, (fetch_calendar_data st now att).result = .fetchFailure msg) ↔
      (st.data = none ∧ ∃ e, att = .failure e) := by
  unfold fetch_calendar_data
  by_cases h : needsRefresh st now = true
  · cases att with
    | success cal => simp [h]
    | failure e =>
      cases hd : st.data with
      | none => simp [h, hd]
      | some d => simp [h, hd]
  · have hd : st.data ≠ none := by
      intro hn
      unfold needsRefresh at h
      rw [hn] at h
      cases hlf : st.last_fetch with
      | none => rw [hlf] at h; simp at h
      | some lf => rw [hlf] at h; simp at h
    simp [h]
    intro hn
    exact absurd hn hd

theorem fetch_stale_doc (st : CacheState) (now : Int) (e : String) (d : RawDocument)
    (hd : st.data = some d) :
    (fetch_calendar_data st now (.failure e)).result = .doc d := by
  unfold fetch_calendar_data
  by_cases h : needsRefresh st now = true
  · simp [h, hd]
  · simp [h, hd]

/-- C1: the cached accessor `fetch_calendar_data` raises its
`Failed to fetch calendar data` error if and only if no call so far has
completed a successful fetch and the current fetch attempt also fails;
in particular, once any fetch has succeeded, a call whose refresh
attempt fails still returns the previously fetched document. -/
theorem C1_fetch_fails_iff_cold_start_and_attempt_fails
    (calls : List (Int × AttemptOutcome)) (now : Int) (att : AttemptOutcome) :
    ((∃ msg, (fetch_calendar_data (runCalls initialCache false calls).1 now att).result
        = .fetchFailure msg) ↔
      ((runCalls initialCache false calls).2 = false ∧ ∃ e, att = .failure e)) ∧
    ((runCalls initialCache false calls).2 = true → ∀ e, att = .failure e →
      ∃ d, (runCalls initialCache false calls).1.data = some d ∧
        (fetch_calendar_data (runCalls initialCache false calls).1 now att).result
          = .doc d) := by
  have hinv := runCalls_inv calls initialCache false (by simp [initialCache]) (by simp [initialCache])
  constructor
  · rw [fetch_result_error_iff, hinv.1]
  · intro hever e hatt
    cases hd : (runCalls initialCache false calls).1.data with
    | none => rw [hinv.1] at hd; rw [hd] at hever; cases hever
    | some d =>
      exact ⟨d, rfl, by rw [hatt]; exact fetch_stale_doc _ now e d hd⟩

theorem C1_witness :
    (runCalls initialCache false [((0 : Int), .success ([] : RawDocument))]).2 = true ∧
    ∃ d, (runCalls initialCache false [((0 : Int), .success ([] : RawDocument))]).1.data = some d ∧
      (fetch_calendar_data
        (runCalls initialCache false [((0 : Int), .success ([] : RawDocument))]).1
        99999 (.failure "network down")).result = .doc d :=
  ⟨by decide,
    (C1_fetch_fails_iff_cold_start_and_attempt_fails
      [((0 : Int), .success ([] : RawDocument))] 99999 (.failure "network down")).2
      (by decide) "network down" rfl⟩

/-- C5: when a refresh attempt fails and a previous snapshot exists, the
call returns that snapshot and leaves the cache cell (both `data` and
`last_fetch`) completely unchanged, so a later call that finds the
cache stale again attempts the network. -/
theorem C5_failed_refresh_leaves_cache_unchanged
    (st : CacheState) (now : Int) (e : String) (d : RawDocument)
    (hrefresh : needsRefresh st now = true) (hd : st.data = some d) :
    fetch_calendar_data st now (.failure e) = ⟨st, .doc d, true, false⟩ ∧
    (∀ (now2 : Int) (att2 : AttemptOutcome), needsRefresh st now2 = true →
      (fetch_calendar_data st now2 att2).attempted = true) := by
  constructor
  · unfold fetch_calendar_data
    simp [hrefresh, hd]
  · intro now2 att2 h2
    unfold fetch_calendar_data
    cases att2 with
    | success cal => simp [h2]
    | failure e2 => cases hd2 : st.data <;> simp [h2, hd2]

theorem C5_witness :
    fetch_calendar_data ⟨some 0, some []⟩ 4000 (.failure "boom")
      = ⟨⟨some 0, some []⟩, .doc [], true, false⟩ :=
  (C5_failed_refresh_leaves_cache_unchanged ⟨some 0, some []⟩ 4000 "boom" []
    (by decide) rfl).1

/-- C7: if the snapshot is fresh (data present and `now - last_fetch` at
most the one-hour TTL), the accessor returns the cached document with
no fetch attempt and no state change; hence two calls within the TTL
return the same document and the second performs no fetch either. -/
theorem C7_fresh_cache_hit_idempotent
    (st : CacheState) (t : Int) (d : RawDocument) (now1 now2 : Int)
    (a1 a2 : AttemptOutcome)
    (hlf : st.last_fetch = some t) (hd : st.data = some d)
    (h1 : now1 - t ≤ cache_duration) (h2 : now2 - t ≤ cache_duration) :
    fetch_calendar_data st now1 a1 = ⟨st, .doc d, false, false⟩ ∧
    fetch_calendar_data (fetch_calendar_data st now1 a1).state now2 a2
      = ⟨st, .doc d, false, false⟩ := by
  have hfresh : ∀ now : Int, now - t ≤ cache_duration → needsRefresh st now = false := by
    intro now h
    unfold needsRefresh
    rw [hlf, hd]
    simpa using by omega
  have hcall : ∀ (now : Int) (a : AttemptOutcome), now - t ≤ cache_duration →
      fetch_calendar_data st now a = ⟨st, .doc d, false, false⟩ := by
    intro now a h
    unfold fetch_calendar_data
    simp [hfresh now h, hd]
  refine ⟨hcall now1 a1 h1, ?_⟩
  rw [hcall now1 a1 h1]
  exact hcall now2 a2 h2

theorem C7_witness :
    fetch_calendar_data ⟨some 0, some []⟩ 10 (.failure "x")
      = ⟨⟨some 0, some []⟩, .doc [], false, false⟩ ∧
    fetch_calendar_data
      (fetch_calendar_data ⟨some 0, some []⟩ 10 (.failure "x")).state 3600
      (.failure "y") = ⟨⟨some 0, some []⟩, .doc [], false, false⟩ :=
  C7_fresh_cache_hit_idempotent ⟨some 0, some []⟩ 0 [] 10 3600
    (.failure "x") (.failure "y") rfl rfl (by decide) (by decide)

/-- C8: in every state reachable by a sequence of `fetch_calendar_data`
calls from process start, the cached document is absent exactly when no
fetch has ever completed successfully, and the document and the fetch
timestamp are absent or present together. -/
theorem C8_cache_document_iff_ever_succeeded
    (calls : List (Int × AttemptOutcome)) :
    ((runCalls initialCache false calls).1.data = none ↔
      (runCalls initialCache false calls).2 = false) ∧
    ((runCalls initialCache false calls).1.data = none ↔
      (runCalls initialCache false calls).1.last_fetch = none) :=
  runCalls_inv calls initialCache false (by simp [initialCache]) (by simp [initialCache])

/-- C2: normalization is total and per-field isolated: every VEVENT record
of the document yields exactly one `NormalizedEvent` (none dropped, none
aborting the batch); a raised extraction of any single guarded field
behaves exactly like an absent field, leaving that field at its default
and every sibling unchanged; and a structural failure escaping the
field guards (the `strftime` call on a non-date `.dt` value) still
yields the minimal record carrying only the summary or the
`Unknown Event` placeholder. -/
theorem C2_normalizer_never_drops_and_isolates :
    (∀ cal : RawDocument,
      (get_all_events cal).length
        = (cal.filter fun c => decide (c.name = "VEVENT")).length) ∧
    (∀ c : RawComponent,
      extract_event_details { c with dtstart := .raised }
          = extract_event_details { c with dtstart := .val none } ∧
      (extract_event_details { c with dtstart := .raised }).start_date = none ∧
      (extract_event_details { c with dtstart := .raised }).start_time = none) ∧
    (∀ c : RawComponent,
      extract_event_details { c with dtend := .raised }
          = extract_event_details { c with dtend := .val none } ∧
      (extract_event_details { c with dtend := .raised }).end_date = none ∧
      (extract_event_details { c with dtend := .raised }).end_time = none) ∧
    (∀ c : RawComponent,
      extract_event_details { c with location := .raised }
        = { extract_event_details c with location := "" }) ∧
    (∀ c : RawComponent,
      extract_event_details { c with description := .raised }
        = { extract_event_details c with description := "" }) ∧
    (∀ c : RawComponent,
      extract_event_details { c with url := .raised }
        = { extract_event_details c with url := "" }) ∧
    (∀ c : RawComponent,
      extract_event_details { c with geo := .raised }
        = { extract_event_details c with geo := none }) ∧
    (∀ c : RawComponent,
      extract_event_details { c with categories := .raised }
        = { extract_event_details c with categories := [] }) ∧
    (∀ c : RawComponent,
      extract_event_details { c with dtstart := .val (some .weird) }
        = minimalEvent c) := by
  refine ⟨?_, ?_, ?_, ?_, ?_, ?_, ?_, ?_, ?_⟩
  · intro cal
    simp [get_all_events, List.length_insertionSort]
  all_goals
    intro c
    rcases c with ⟨name, summary, dts, dte, loc, desc, url, geo, cats⟩
    rcases dts with (_ | (⟨ds1, ts1⟩ | ds1 | _)) | _ <;>
      rcases dte with (_ | (⟨ds2, ts2⟩ | ds2 | _)) | _ <;>
      first
        | rfl
        | exact ⟨rfl, rfl, rfl⟩

/-- C3 (code bug): on the raw GEO string `42.34;-71.08` the code takes the
iterable-unpacking branch (a Python `str` is iterable), so the first
two characters `4` and `2` become the coordinates: the result is
latitude 4.0, longitude 2.0, not the 42.34 and -71.08 the
semicolon-split branch (unreachable for strings of length at least
two, contradicting its own comment) would produce.  A string with no
parseable numeric pair does yield an absent geo field. -/
theorem C3_geo_semicolon_string_misparsed :
    geoFromRaw (some (.strval "42.34;-71.08")) = some ⟨mkRat 4 1, mkRat 2 1⟩ ∧
    geoFromRaw (some (.strval "abc")) = none := by
  refine ⟨by decide, by decide⟩

/-- C4 counterexample: on the raw GEO string `abc;1;2` the attempted
strategy (iterable unpacking of the first two characters) raises inside
`float`, the exception is caught, and the result is absent - even
though the later strategies would yield two parseable floats (the
semicolon split has parts `abc`, `1`, `2`, and the numeric-substring
regex finds `1` and `2`).  Under the claim (a raising strategy is
skipped and later strategies are still tried), as modelled verbatim by
`geoChainSpec`, the result would have been latitude 1.0 and longitude
2.0, so the claim is false at this input. -/
theorem C4_counterexample_raising_strategy_not_skipped :
    geoFromRaw (some (.strval "abc;1;2")) = none ∧
    geoChainSpec (.strval "abc;1;2") = some ⟨mkRat 1 1, mkRat 2 1⟩ ∧
    splitChar ';' "abc;1;2".data = ["abc".data, "1".data, "2".data] ∧
    reFindNumbers "abc;1;2".data = ["1".data, "2".data] ∧
    pyFloat "1".data = some (mkRat 1 1) ∧
    pyFloat "2".data = some (mkRat 2 1) := by
  refine ⟨by decide, by decide, by decide, by decide, by decide, by decide⟩

/-- C4 as amended: only the first strategy whose shape guard matches is
attempted - structured latitude/longitude attributes first; then
iterable unpacking, which captures every string of length at least two
with its first two characters as the pair; if the attempted strategy
raises, the exception is caught, geo is absent, and no later strategy
is tried; if no strategy yields two parseable floats, geo is absent. -/
theorem C4_amended_first_matching_guard_decides
    : (∀ la lo : Rat, geoFromRaw (some (.structured la lo)) = some ⟨la, lo⟩) ∧
      (∀ s : String, 2 ≤ s.data.length →
        geoFromRaw (some (.strval s)) =
          match pyFloat (charAt s.data 0), pyFloat (charAt s.data 1) with
          | some a, some b => some ⟨a, b⟩
          | _, _ => none) ∧
      (∀ s : String, 2 ≤ s.data.length → pyFloat (charAt s.data 0) = none →
        geoFromRaw (some (.strval s)) = none) := by
  refine ⟨fun la lo => rfl, ?_, ?_⟩
  · intro s hs
    show geoFromStr s.data = _
    rw [geoFromStr, if_pos hs]
  · intro s hs h0
    show geoFromStr s.data = _
    rw [geoFromStr, if_pos hs, h0]

theorem C4_amended_witness :
    geoFromRaw (some (.strval "ab")) = none :=
  C4_amended_first_matching_guard_decides.2.2 "ab" (by decide) (by decide)


/-- C6 counterexample: an event with the genuine start date `9999-12-31`
compares equal to the sentinel used for absent dates, so the
absent-date event (earlier in source order) stays in front of it in the
output - an absent start date does not sort after every present one. -/
theorem C6_counterexample_absent_before_sentinel_date :
    (get_all_events docSentinel).map (fun e => e.start_date)
      = [none, some "9999-12-31"] ∧
    (get_all_events docSentinel).map (fun e => e.summary)
      = ["NoDate", "MaxDate"] := by
  refine ⟨by decide, by decide⟩

/-- C6 as amended: the output of `get_all_events` is sorted non-decreasing
under the key (start date if truthy, else the sentinel `9999-12-31`);
it is a permutation of the normalized records in source order (so the
sentinel never replaces any field); the sort is stable (records with
equal keys keep their source order); whenever an absent-date event
precedes a present-date event, that present date is at least the
sentinel `9999-12-31` (absent dates sort after every present date
lexicographically below the sentinel); and for documents in which every
event carries a truthy start date the output is non-decreasing in
start date. -/
theorem C6_amended_sorted_sentinel_stable :
    (∀ cal : RawDocument, (get_all_events cal).Pairwise sortLe) ∧
    (∀ cal : RawDocument,
      (get_all_events cal).Perm
        ((cal.filter fun c => decide (c.name = "VEVENT")).map extract_event_details)) ∧
    (∀ (cal : RawDocument) (k : String),
      (get_all_events cal).filter (fun e => decide (sortKey e = k))
        = ((cal.filter fun c => decide (c.name = "VEVENT")).map
            extract_event_details).filter (fun e => decide (sortKey e = k))) ∧
    (∀ cal : RawDocument,
      (get_all_events cal).Pairwise (fun a b =>
        a.start_date = none → ∀ s, b.start_date = some s → s ≠ "" →
          lexLe "9999-12-31".data s.data = true)) ∧
    (∀ cal : RawDocument,
      (∀ e ∈ (cal.filter fun c => decide (c.name = "VEVENT")).map
          extract_event_details, ∃ s, e.start_date = some s ∧ s ≠ "") →
      (get_all_events cal).Pairwise (fun a b => ∀ sa sb,
        a.start_date = some sa → b.start_date = some sb →
          lexLe sa.data sb.data = true)) := by
  haveI : IsTotal NormalizedEvent sortLe :=
    ⟨fun a b => lexLe_total (sortKey a).data (sortKey b).data⟩
  haveI : IsTrans NormalizedEvent sortLe :=
    ⟨fun a b c h1 h2 =>
      lexLe_trans (sortKey a).data (sortKey b).data (sortKey c).data h1 h2⟩
  have hsorted : ∀ cal : RawDocument, (get_all_events cal).Pairwise sortLe :=
    fun cal => List.sorted_insertionSort sortLe _
  refine ⟨hsorted, fun cal => List.perm_insertionSort sortLe _, ?_, ?_, ?_⟩
  · intro cal k
    exact insertionSort_filter_eq _ sortLe
      (fun x y hx hy => by
        rw [decide_eq_true_eq] at hx hy
        show lexLe (sortKey x).data (sortKey y).data = true
        rw [hx, hy]
        exact lexLe_refl _) _
  · intro cal
    refine List.Pairwise.imp ?_ (hsorted cal)
    intro a b hr ha s hb hs
    have hka : sortKey a = "9999-12-31" := by unfold sortKey; rw [ha]
    have hkb : sortKey b = s := by unfold sortKey; rw [hb]; simp [hs]
    show lexLe ("9999-12-31" : String).data s.data = true
    rw [← hka, ← hkb]
    exact hr
  · intro cal hall
    refine List.Pairwise.imp_of_mem ?_ (hsorted cal)
    intro a b hma hmb hr sa sb hsa hsb
    have hmem : ∀ x, x ∈ get_all_events cal →
        x ∈ (cal.filter fun c => decide (c.name = "VEVENT")).map
          extract_event_details := by
      intro x hx
      unfold get_all_events at hx
      exact (List.mem_insertionSort sortLe).1 hx
    have hkey : ∀ x, x ∈ get_all_events cal → ∀ sx, x.start_date = some sx →
        sortKey x = sx := by
      intro x hx sx hsx
      obtain ⟨s2, hs2, hne⟩ := hall x (hmem x hx)
      rw [hsx] at hs2
      injection hs2 with h2
      subst h2
      unfold sortKey
      rw [hsx]
      simp [hne]
    have h1 := hkey a hma sa hsa
    have h2 := hkey b hmb sb hsb
    show lexLe sa.data sb.data = true
    rw [← h1, ← h2]
    exact hr

theorem C6_amended_witness :
    (get_all_events [vevOn "2024-05-01" "B", vevOn "2024-04-01" "A"]).Pairwise
      (fun a b => ∀ sa sb, a.start_date = some sa → b.start_date = some sb →
        lexLe sa.data sb.data = true) :=
  C6_amended_sorted_sentinel_stable.2.2.2.2
    [vevOn "2024-05-01" "B", vevOn "2024-04-01" "A"]
    (by
      intro e he
      simp only [List.mem_map, List.mem_filter] at he
      obtain ⟨a, ⟨hmem, _⟩, rfl⟩ := he
      have ha : a = vevOn "2024-05-01" "B" ∨ a = vevOn "2024-04-01" "A" := by
        simpa using hmem
      rcases ha with rfl | rfl
      · exact ⟨"2024-05-01", rfl, by decide⟩
      · exact ⟨"2024-04-01", rfl, by decide⟩)

theorem fmtChars_ne_nil (d : PyDate) : fmtChars d ≠ [] := by
  unfold fmtChars
  cases Nat.toDigits 10 d.year <;> simp

theorem dateInRange_true_iff (t endS : String) (ht : t.data ≠ [])
    (e : NormalizedEvent) :
    dateInRange t endS e = true ↔
      ∃ sd, e.start_date = some sd ∧ lexLe t.data sd.data = true ∧
        lexLe sd.data endS.data = true := by
  unfold dateInRange
  cases hs : e.start_date with
  | none => simp
  | some sd =>
    simp only [Bool.and_eq_true, Bool.not_eq_true']
    constructor
    · rintro ⟨⟨_, hA⟩, hB⟩
      exact ⟨sd, rfl, hA, hB⟩
    · rintro ⟨sd2, hsd2, hA, hB⟩
      injection hsd2 with h2
      subst h2
      refine ⟨⟨?_, hA⟩, hB⟩
      cases hempty : sd.data with
      | nil => rw [hempty] at hA; rw [lexLe_nil_right t.data ht] at hA; cases hA
      | cons c cs => simp


/-- C9: the upcoming filter keeps exactly the events whose start date is
present and lies in the inclusive range from today to today plus the
given number of days, under lexicographic string comparison; with
today 2024-03-10 and three days the range ends at 2024-03-13 inclusive
and 2024-03-14 is excluded. -/
theorem C9_upcoming_inclusive_range :
    (∀ (today : PyDate) (days : Nat) (evs : List NormalizedEvent)
        (e : NormalizedEvent),
      e ∈ get_upcoming_events today days evs ↔
        e ∈ evs ∧ ∃ sd, e.start_date = some sd
          ∧ lexLe today.fmt.data sd.data = true
          ∧ lexLe sd.data ((addDays today days).fmt).data = true) ∧
    (addDays ⟨2024, 3, 10⟩ 3).fmt = "2024-03-13" ∧
    get_upcoming_events ⟨2024, 3, 10⟩ 3
      [evNamed (some "2024-03-14") "D", evNamed (some "2024-03-10") "A",
        evNamed none "E", evNamed (some "2024-03-13") "C",
        evNamed (some "2024-03-11") "B"]
      = [evNamed (some "2024-03-10") "A", evNamed (some "2024-03-13") "C",
          evNamed (some "2024-03-11") "B"] := by
  refine ⟨?_, by decide, by decide⟩
  intro today days evs e
  unfold get_upcoming_events
  have ht : (PyDate.fmt today).data ≠ [] := fmtChars_ne_nil today
  rw [List.mem_filter,
    dateInRange_true_iff today.fmt ((addDays today days).fmt) ht e]

/-- C10: the event-details lookup selects solely by case-insensitive
substring match of the given name against the summary, with no date
constraint: past-dated and dateless events are returned, and the
dateless event that it returns is excluded from every date-filtered
query (today, upcoming, search, by-category) for every choice of their
parameters. -/
theorem C10_details_match_by_summary_only :
    (∀ (event_name : String) (evs : List NormalizedEvent) (e : NormalizedEvent),
      e ∈ get_event_details event_name evs ↔
        e ∈ evs ∧
          containsSub (pyLower event_name.data) (pyLower e.summary.data) = true) ∧
    get_event_details "gala"
        [evNamed (some "1999-01-01") "Gala Night", evNamed none "Mystery Gala",
          evNamed (some "2999-01-01") "Lecture"]
      = [evNamed (some "1999-01-01") "Gala Night", evNamed none "Mystery Gala"] ∧
    (∀ (today : PyDate) (days : Nat),
      evNamed none "Mystery Gala" ∉ get_upcoming_events today days
        [evNamed (some "1999-01-01") "Gala Night", evNamed none "Mystery Gala",
          evNamed (some "2999-01-01") "Lecture"]) ∧
    (∀ today : PyDate,
      evNamed none "Mystery Gala" ∉ get_today_events today
        [evNamed (some "1999-01-01") "Gala Night", evNamed none "Mystery Gala",
          evNamed (some "2999-01-01") "Lecture"]) ∧
    (∀ (today : PyDate) (days : Nat) (q : String),
      evNamed none "Mystery Gala" ∉ search_events q today days
        [evNamed (some "1999-01-01") "Gala Night", evNamed none "Mystery Gala",
          evNamed (some "2999-01-01") "Lecture"]) ∧
    (∀ (today : PyDate) (days : Nat) (cq : String),
      evNamed none "Mystery Gala" ∉ get_events_by_category cq today days
        [evNamed (some "1999-01-01") "Gala Night", evNamed none "Mystery Gala",
          evNamed (some "2999-01-01") "Lecture"]) := by
  refine ⟨?_, by decide, ?_, ?_, ?_, ?_⟩
  · intro event_name evs e
    unfold get_event_details
    rw [List.mem_filter]
  · intro today days hmem
    rw [get_upcoming_events, List.mem_filter] at hmem
    have h2 := hmem.2
    simp [dateInRange, evNamed] at h2
  · intro today hmem
    rw [get_today_events, List.mem_filter] at hmem
    have h2 := hmem.2
    simp [evNamed] at h2
  · intro today days q hmem
    rw [search_events, List.mem_filter] at hmem
    have h2 := hmem.2
    simp [dateInRange, evNamed] at h2
  · intro today days cq hmem
    rw [get_events_by_category, List.mem_filter] at hmem
    have h2 := hmem.2
    simp [dateInRange, evNamed] at h2

theorem C10_witness :
    evNamed none "Mystery Gala" ∉ get_upcoming_events ⟨2024, 3, 10⟩ 7
      [evNamed (some "1999-01-01") "Gala Night", evNamed none "Mystery Gala",
        evNamed (some "2999-01-01") "Lecture"] :=
  C10_details_match_by_summary_only.2.2.1 ⟨2024, 3, 10⟩ 7
